import Mathlib

/-!
Shallow embedding of the tabular analysis engine of `file-analyser-utils`
(src/csv/csv_analyser.py and src/parquet/parquet_analyser.py), together with
theorems checking the natural-language specification against that code.

Conventions of the embedding:
* cell values are modelled by `PVal` (a rational number or a string); a null /
  NaN / absent cell is `none : Option PVal`;
* a pandas DataFrame is modelled column-wise: each column carries its name, a
  dtype tag (a plain string such as "int32" or "object") and its cells;
* a pyarrow table (`PTable`) additionally carries the declared pyarrow type of
  every column, which `Table.to_pandas` forgets except for the dtype tag;
* Python code that can raise is modelled with `Option`: `none` is the raised
  exception (`ZeroDivisionError`, `KeyError`, `UnboundLocalError`).
-/

set_option autoImplicit false

namespace FileAnalyser

/-- A scalar cell value: numbers are modelled exactly as rationals, everything
else as a string. -/
inductive PVal where
  | num (q : ℚ) : PVal
  | str (s : String) : PVal
  deriving DecidableEq, Repr

/-- One pandas column: its dtype tag and its cells.  A numeric-dtype column
(`pd.api.types.is_numeric_dtype`) holds rationals, any other column holds
strings; `none` is a null/NaN cell. -/
inductive ColData where
  | numeric (dtype : String) (cells : List (Option ℚ)) : ColData
  | other (dtype : String) (cells : List (Option String)) : ColData
  deriving DecidableEq, Repr

/-- Number of cells stored in a column. -/
def ColData.size : ColData → ℕ
  | .numeric _ cells => cells.length
  | .other _ cells => cells.length

/-- The cell of a column at 0-based row index `i`, as a generic value.
Out-of-range access yields `none`, like a null. -/
def ColData.cellAt : ColData → ℕ → Option PVal
  | .numeric _ cells, i => (cells.getD i none).map PVal.num
  | .other _ cells, i => (cells.getD i none).map PVal.str

/-- A pandas DataFrame, column-oriented. -/
structure DataFrame where
  cols : List (String × ColData)
  deriving DecidableEq, Repr

/-- `df.columns` as a list of names (order matters). -/
def DataFrame.columns (df : DataFrame) : List String :=
  df.cols.map Prod.fst

/-- `len(df)`: the row count, read off the first column. -/
def DataFrame.numRows (df : DataFrame) : ℕ :=
  match df.cols with
  | [] => 0
  | c :: _ => c.2.size

/-- `df.shape`: (row count, column count). -/
def DataFrame.shape (df : DataFrame) : ℕ × ℕ :=
  (df.numRows, df.cols.length)

/-- `df[col][i]`: cell lookup by column name (first matching column). -/
def DataFrame.cellAt (df : DataFrame) (col : String) (i : ℕ) : Option PVal :=
  match df.cols.find? (fun p => decide (p.1 = col)) with
  | none => none
  | some p => p.2.cellAt i

/-- `df.iloc[i].to_dict()`: one row as an ordered name→value mapping. -/
def DataFrame.rowAt (df : DataFrame) (i : ℕ) : List (String × Option PVal) :=
  df.cols.map (fun p => (p.1, p.2.cellAt i))

/-- A pyarrow column type, as far as the comparator distinguishes them. -/
inductive PqType where
  | int32 | int64 | float64 | utf8
  deriving DecidableEq, Repr

/-- One column of a pyarrow table: field name, declared pyarrow type, and the
pandas rendering of its data. -/
structure PCol where
  name : String
  ptype : PqType
  data : ColData
  deriving DecidableEq, Repr

/-- A pyarrow table. -/
structure PTable where
  cols : List PCol
  deriving DecidableEq, Repr

/-- `schema.names`. -/
def PTable.schemaNames (t : PTable) : List String :=
  t.cols.map PCol.name

/-- The schema, as the ordered list of (field name, declared type). -/
def PTable.schema (t : PTable) : List (String × PqType) :=
  t.cols.map (fun c => (c.name, c.ptype))

/-- `len(schema.names)`. -/
def PTable.numColumns (t : PTable) : ℕ :=
  t.cols.length

/-- `table.num_rows`, read off the first column. -/
def PTable.numRows (t : PTable) : ℕ :=
  match t.cols with
  | [] => 0
  | c :: _ => c.data.size

/-- `Table.to_pandas()`: drops the pyarrow types, keeps names, dtype tags and
cells. -/
def PTable.toPandas (t : PTable) : DataFrame :=
  ⟨t.cols.map (fun c => (c.name, c.data))⟩

/-- `table.slice(i, 1).to_pydict()[col][0]` with default `[None]` for a column
name absent from the table (`row.get(col, [None])[0]`). -/
def PTable.lookupCell (t : PTable) (col : String) (i : ℕ) : Option PVal :=
  match t.cols.find? (fun c => decide (c.name = col)) with
  | none => none
  | some c => c.data.cellAt i

/-- `table.slice(i, 1)` rendered as a row dict over the schema names. -/
def PTable.rowAt (t : PTable) (i : ℕ) : List (String × Option PVal) :=
  t.cols.map (fun c => (c.name, c.data.cellAt i))

/-- A duplicate-detection key: the tuple of leading cell values of a row. -/
abbrev RowKey := List (Option PVal)

/-- The shared body of both analysers' `show_records`: clamp the count to the
row count, choose the tail or head window, and emit `(start + i + 1, row
(start + i))`. -/
def windowedRows {α : Type} (N : ℕ) (row : ℕ → α) (count : ℕ) (tl : Bool) :
    List (ℕ × α) :=
  let c := if count > N then N else count
  let start := if tl then N - c else 0
  (List.range c).map (fun i => (start + i + 1, row (start + i)))

namespace Parquet

/-- `schemas_equal` (parquet_analyser.py): field-by-field comparison of names
and declared types after a length check; the source accumulates `match` over
all fields, which is the conjunction below. -/
def schemas_equal (s1 s2 : List (String × PqType)) : Bool :=
  if s1.length ≠ s2.length then false
  else (s1.zip s2).all (fun p => decide (p.1.1 = p.2.1) && decide (p.1.2 = p.2.2))

/-- One cell pair under `np.isclose(a, b, rtol, atol, equal_nan=True)`:
two NaN/null cells are close, a null against a value is not, and two numbers
are close when `|a - b| ≤ atol + rtol * |b|`. -/
def fuzzyCellB (rtol atol : ℚ) : Option ℚ → Option ℚ → Bool
  | none, none => true
  | some a, some b => decide (|a - b| ≤ atol + rtol * |b|)
  | _, _ => false

/-- `np.allclose(s1, s2, rtol=rtol, atol=atol, equal_nan=True)` over two equal
length cell vectors. -/
def allcloseQ (a b : List (Option ℚ)) (rtol atol : ℚ) : Bool :=
  decide (a.length = b.length) && (a.zip b).all (fun p => fuzzyCellB rtol atol p.1 p.2)

/-- Per-column body of `dataframe_equal_fuzzy`: numeric columns on both sides
go through `np.allclose` (their dtype tags are coerced away by
`pd.to_numeric`), anything else through the exact `Series.equals`, which also
requires equal dtypes. -/
def colClose (rtol atol : ℚ) : ColData → ColData → Bool
  | .numeric _ a, .numeric _ b => allcloseQ a b rtol atol
  | c1, c2 => decide (c1 = c2)

/-- `dataframe_equal_fuzzy` (parquet_analyser.py): the column name lists must
be equal, then every column pair must pass `colClose`; the source collects a
`differences` dict and returns whether it stayed empty. -/
def dataframe_equal_fuzzy (df1 df2 : DataFrame) (rtol atol : ℚ) : Bool :=
  if df1.columns ≠ df2.columns then false
  else (df1.cols.zip df2.cols).all (fun p => colClose rtol atol p.1.2 p.2.2)

/-- `compare_parquet_files` (parquet_analyser.py).  `none` models the
`UnboundLocalError` raised when the final `result = same_schema and same_shape`
reads `same_schema` although `check_schema` was false, so it was never
assigned. -/
def compare_parquet_files (t1 t2 : PTable)
    (check_schema check_data fuzzy_data : Bool) (rtol atol : ℚ) : Option Bool :=
  let same_shape : Bool :=
    decide (t1.numColumns = t2.numColumns) && decide (t1.numRows = t2.numRows)
  let same_schema : Option Bool :=
    if check_schema then some (schemas_equal t1.schema t2.schema) else none
  if !same_shape then some false
  else if check_data then
    some (if fuzzy_data then dataframe_equal_fuzzy t1.toPandas t2.toPandas rtol atol
          else decide (t1.toPandas = t2.toPandas))
  else
    same_schema.map (fun s => s && same_shape)

/-- `sum(1 for col in schema.names if row[col][0] is not None)`: the observed
non-null field count of row `i`. -/
def nonNullFields (t : PTable) (i : ℕ) : ℕ :=
  t.schemaNames.countP (fun nm => decide (t.lookupCell nm i ≠ none))

/-- `tuple(row[schema.names[j]][0] for j in range(min(check_duplicates,
num_columns)))`: the key of row `i` for key width `kk`. -/
def rowKey (t : PTable) (kk : ℕ) (i : ℕ) : RowKey :=
  (List.range (min kk t.numColumns)).map
    (fun j => t.lookupCell (t.schemaNames.getD j "") i)

/-- `duplicate_keys[key].append(r)` on a `defaultdict(list)`: append the row
number to the group of `key`, creating the group at the end if absent
(Python dicts preserve insertion order). -/
def addRow (gs : List (RowKey × List ℕ)) (key : RowKey) (r : ℕ) :
    List (RowKey × List ℕ) :=
  if gs.any (fun g => decide (g.1 = key)) then
    gs.map (fun g => if g.1 = key then (g.1, g.2 ++ [r]) else g)
  else gs ++ [(key, [r])]

/-- The accumulating state of the `analyse_parquet` row loop
(parquet_analyser.py): the non-null field count histogram, the sparse row
numbers, the per-column null counters, the malformed row numbers, and the
duplicate-key groups. -/
structure PqAnalysis where
  hist : ℕ → ℕ
  sparse : List ℕ
  nullCounts : List (String × ℕ)
  malformed : List ℕ
  dupGroups : List (RowKey × List ℕ)

/-- One iteration of the `analyse_parquet` loop on row `i` (0-based): count
nulls per column, record the non-null field count, flag the row as malformed
when that count differs from the column count, as sparse when it is below
half the column count, and feed the duplicate detector when a positive key
width was requested. -/
def analyseStep (t : PTable) (ck : Option ℕ) (s : PqAnalysis) (i : ℕ) : PqAnalysis :=
  let nnf := nonNullFields t i
  ⟨fun c => if c = nnf then s.hist c + 1 else s.hist c,
   if (nnf : ℚ) < (t.numColumns : ℚ) * (1 / 2) then s.sparse ++ [i + 1] else s.sparse,
   s.nullCounts.map (fun p => (p.1, if t.lookupCell p.1 i = none then p.2 + 1 else p.2)),
   if nnf ≠ t.numColumns then s.malformed ++ [i + 1] else s.malformed,
   match ck with
   | some kk => if 0 < kk then addRow s.dupGroups (rowKey t kk i) (i + 1) else s.dupGroups
   | none => s.dupGroups⟩

/-- `analyse_parquet` (parquet_analyser.py): fold the loop body over all rows,
starting from empty tallies and `column_null_counts = {name: 0 for name in
schema.names}`.  `ck` is the `check_duplicates` argument. -/
def analyse_parquet (t : PTable) (ck : Option ℕ) : PqAnalysis :=
  (List.range t.numRows).foldl (analyseStep t ck)
    ⟨fun _ => 0, [], t.schemaNames.map (fun nm => (nm, 0)), [], []⟩

/-- The "Column Null Percentage" report of `analyse_parquet`:
`percent = (nulls / num_rows) * 100` per column.  `none` models the
`ZeroDivisionError` raised when the table has columns but no rows. -/
def column_null_percentages (t : PTable) : Option (List (String × ℚ)) :=
  if t.cols ≠ [] ∧ t.numRows = 0 then none
  else some ((analyse_parquet t none).nullCounts.map
    (fun p => (p.1, ((p.2 : ℚ) / (t.numRows : ℚ)) * 100)))

/-- `duplicates = {k: v for k, v in duplicate_keys.items() if len(v) > 1}`:
the reported duplicate groups for key width `kk`. -/
def duplicate_groups (t : PTable) (kk : ℕ) : List (RowKey × List ℕ) :=
  (analyse_parquet t (some kk)).dupGroups.filter (fun g => decide (1 < g.2.length))

/-- `find_rows_by_column_values` (parquet_analyser.py): row `i` matches when
`row.get(col, [None])[0] == column_values[col]` for every predicate column
(an absent column yields `None`, which equals a null predicate value); the
1-based numbers of the matches, in scan order. -/
def find_rows_by_column_values (t : PTable) (pred : List (String × Option PVal)) :
    List ℕ :=
  ((List.range t.numRows).filter
    (fun i => pred.all (fun p => decide (t.lookupCell p.1 i = p.2)))).map (· + 1)

/-- `show_records` (parquet_analyser.py): clamp the count, slice the first or
last `count` rows, and print them as `Row start+i+1`. -/
def show_records (t : PTable) (count : ℕ) (tl : Bool) :
    List (ℕ × List (String × Option PVal)) :=
  let c := if count > t.numRows then t.numRows else count
  let start := if tl then t.numRows - c else 0
  (List.range c).map (fun i => (start + i + 1, t.rowAt (start + i)))

end Parquet

namespace Csv

/-- `compare_csv_files` (csv_analyser.py).  `df1.equals(df2)` is structural
equality of the two frames (same labels, dtypes and cells, with NaN equal to
NaN at the same location). -/
def compare_csv_files (df1 df2 : DataFrame) (check_header check_data : Bool) : Bool :=
  let same_shape : Bool := decide (df1.shape = df2.shape)
  let same_header : Bool :=
    if check_header then decide (df1.columns = df2.columns) else true
  if !same_shape then false
  else if check_data then decide (df1 = df2)
  else same_header && same_shape

/-- Split a character list at commas (the field splitting of `csv.reader`
with the default delimiter; quoting is not modelled because no analysed
input uses it). -/
def splitComma : List Char → List (List Char)
  | [] => [[]]
  | c :: rest =>
    match splitComma rest with
    | [] => [[c]]
    | f :: fs => if c = ',' then [] :: f :: fs else (c :: f) :: fs

/-- The parsed fields of one CSV record; a blank line yields no fields, as
with `csv.reader`. -/
def strFields (s : String) : List String :=
  if s = "" then [] else (splitComma s.toList).map (fun cs => String.mk cs)

/-- Whether `pat` is a prefix of `s`, character by character. -/
def hasPrefixC : List Char → List Char → Bool
  | _, [] => true
  | [], _ :: _ => false
  | a :: s, b :: p => (a == b) && hasPrefixC s p

/-- Whether `pat` occurs as a contiguous substring (Python's `pat in s`). -/
def containsSub (pat : List Char) : List Char → Bool
  | [] => hasPrefixC [] pat
  | c :: rest => hasPrefixC (c :: rest) pat || containsSub pat rest

/-- Python's `needle in line` on strings. -/
def strContainsSub (s needle : String) : Bool :=
  containsSub needle.toList s.toList

/-- `enumerate(f, start=k)` over a list of lines. -/
def numberFrom (k : ℕ) : List String → List (ℕ × String)
  | [] => []
  | a :: l => (k, a) :: numberFrom (k + 1) l

/-- `pd.read_csv`: the first physical line holds the column names, the rest
the data rows; short rows are padded with nulls.  Values are modelled as
uninterpreted strings (the dtype inference of the external parser is not
modelled). -/
def read_csv (lines : List String) : DataFrame :=
  let header := strFields (lines.headD "")
  let dat := lines.tail.map strFields
  ⟨(List.range header.length).map (fun j =>
    (header.getD j "", ColData.other "object" (dat.map (fun r => r.get? j))))⟩

/-- `find_rows_by_column_values` with `raw=False` (csv_analyser.py): `none`
models the `KeyError` raised by `df[columns]` when a predicate column is
absent; otherwise the 1-based data-row numbers (`idx + 1` over the default
index) of the rows whose cells equal every predicate value. -/
def find_rows_by_column_values (df : DataFrame) (pred : List (String × PVal)) :
    Option (List ℕ) :=
  if pred.any (fun p => !(decide (p.1 ∈ df.columns))) then none
  else some (((List.range df.numRows).filter
    (fun i => pred.all (fun p => decide (df.cellAt p.1 i = some p.2)))).map (· + 1))

/-- `find_rows_by_column_values` with `raw=True` (csv_analyser.py): physical
line numbers from `enumerate(f, start=1)` — the header line is line 1 — of
the lines containing the search string. -/
def find_raw (lines : List String) (needle : String) : List ℕ :=
  ((numberFrom 1 lines).filter (fun p => strContainsSub p.2 needle)).map Prod.fst

/-- `show_records` with `raw=False` (csv_analyser.py), over the parsed frame:
clamp the count, take the first or last `count` data rows, number them
`start + i + 1`. -/
def show_records (df : DataFrame) (count : ℕ) (tl : Bool) :
    List (ℕ × List (String × Option PVal)) :=
  let c := if count > df.numRows then df.numRows else count
  let start := if tl then df.numRows - c else 0
  (List.range c).map (fun i => (start + i + 1, df.rowAt (start + i)))

/-- `show_records` with `raw=True` (csv_analyser.py): row `start + i + 1` is
printed with the physical file line at 0-based index `start + i` (found via
`enumerate(f)`), which for a file with a header line is the line BEFORE the
corresponding data row. -/
def show_records_raw (lines : List String) (count : ℕ) (tl : Bool) :
    List (ℕ × Option String) :=
  let nr := (read_csv lines).numRows
  let c := if count > nr then nr else count
  let start := if tl then nr - c else 0
  (List.range c).map (fun i => (start + i + 1, lines.get? (start + i)))

/-- `show_row_with_context` with `raw=True` (csv_analyser.py): row `idx` is
printed with the physical line at 0-based index `idx - 1`, again off by the
header line. -/
def show_row_with_context_raw (lines : List String) (rowNumber context : ℕ) :
    List (ℕ × Option String) :=
  let nr := (read_csv lines).numRows
  let r := max 1 (min rowNumber nr)
  let start := r - context - 1
  let e := min nr (r + context)
  (List.range (e - start)).map (fun i => (start + i + 1, lines.get? (start + i)))

/-- The accumulating state of the `analyse_csv` loop (csv_analyser.py). -/
structure CsvAnalysis where
  hist : ℕ → ℕ
  expected : Option ℕ
  malformed : List ℕ

/-- The lines `analyse_csv` actually processes: all physical lines numbered
from 1, minus line 1 when `skip_header` is set. -/
def consideredLines (lines : List String) (skipHeader : Bool) : List (ℕ × String) :=
  (numberFrom 1 lines).filter (fun p => !(skipHeader && decide (p.1 = 1)))

/-- One iteration of the `analyse_csv` loop: tally the field count, set the
expected count on the first row seen, and record any later row whose count
differs as malformed. -/
def csvScanStep (s : CsvAnalysis) (p : ℕ × String) : CsvAnalysis :=
  let fc := (strFields p.2).length
  ⟨fun c => if c = fc then s.hist c + 1 else s.hist c,
   some (s.expected.getD fc),
   match s.expected with
   | none => s.malformed
   | some e => if fc ≠ e then s.malformed ++ [p.1] else s.malformed⟩

/-- `analyse_csv` (csv_analyser.py). -/
def analyse_csv (lines : List String) (skipHeader : Bool) : CsvAnalysis :=
  (consideredLines lines skipHeader).foldl csvScanStep ⟨fun _ => 0, none, []⟩

end Csv

/-! ### Spec-side reformulations used to state the comparator claims -/

/-- The spec's fuzzy cell rule: two nulls/NaNs in the same position are equal,
a null against a value is unequal, and numbers obey
`|a - b| ≤ abs_tol + rel_tol * |b|`. -/
def FuzzyCellSpec (rtol atol : ℚ) : Option ℚ → Option ℚ → Prop
  | none, none => True
  | some a, some b => |a - b| ≤ atol + rtol * |b|
  | _, _ => False

/-- The spec's per-column data-equality rule: numeric columns cell-by-cell
under `FuzzyCellSpec`, any other pair of columns by exact equality including
the dtype; a numeric column against a non-numeric one never matches. -/
def ColCloseSpec (rtol atol : ℚ) : ColData → ColData → Prop
  | .numeric _ a, .numeric _ b =>
      a.length = b.length ∧ ∀ p ∈ a.zip b, FuzzyCellSpec rtol atol p.1 p.2
  | .other d1 a, .other d2 b => d1 = d2 ∧ a = b
  | .numeric _ _, .other _ _ => False
  | .other _ _, .numeric _ _ => False

/-- Row numbers (1-based) of the first `n` rows whose non-null field count
differs from the schema width. -/
def malformedSpec (t : PTable) (n : ℕ) : List ℕ :=
  ((List.range n).filter
    (fun i => decide (Parquet.nonNullFields t i ≠ t.numColumns))).map (· + 1)

/-- Row numbers (1-based) of the first `n` rows with fewer than half the
schema width of non-null fields. -/
def sparseSpec (t : PTable) (n : ℕ) : List ℕ :=
  ((List.range n).filter
    (fun i => decide ((Parquet.nonNullFields t i : ℚ) <
      (t.numColumns : ℚ) * (1 / 2)))).map (· + 1)

/-- How many of the first `n` rows have a null in column `nm`. -/
def nullCountSpec (t : PTable) (nm : String) (n : ℕ) : ℕ :=
  (List.range n).countP (fun i => decide (t.lookupCell nm i = none))

/-- How many of the first `n` rows have exactly `c` non-null fields. -/
def histSpec (t : PTable) (n c : ℕ) : ℕ :=
  (List.range n).countP (fun i => decide (Parquet.nonNullFields t i = c))

/-- The distinct row keys of the first `n` rows, in order of first
encounter. -/
def keysUpTo (t : PTable) (kk n : ℕ) : List RowKey :=
  (List.range n).foldl
    (fun acc i => if Parquet.rowKey t kk i ∈ acc then acc
                  else acc ++ [Parquet.rowKey t kk i]) []

/-- The ascending 1-based numbers of the rows among the first `n` whose key
equals `key`. -/
def matchingRows (t : PTable) (kk : ℕ) (key : RowKey) (n : ℕ) : List ℕ :=
  ((List.range n).filter (fun i => decide (Parquet.rowKey t kk i = key))).map (· + 1)

/-- The duplicate-key grouping of the first `n` rows: one group per distinct
key in first-encounter order, carrying all matching row numbers. -/
def groupsSpec (t : PTable) (kk n : ℕ) : List (RowKey × List ℕ) :=
  (keysUpTo t kk n).map (fun key => (key, matchingRows t kk key n))

/-- One-column table: field `a` declared `int32`, single value 1. -/
def tSchemaA : PTable := ⟨[⟨"a", .int32, .numeric "int32" [some 1]⟩]⟩

/-- Same field name and data value as `tSchemaA`, but declared `int64`. -/
def tSchemaB : PTable := ⟨[⟨"a", .int64, .numeric "int64" [some 1]⟩]⟩

/-- One `float64` column with the single value 1. -/
def tFuzzyA : PTable := ⟨[⟨"x", .float64, .numeric "float64" [some 1]⟩]⟩

/-- Like `tFuzzyA` but the cell is larger by `1e-9`. -/
def tFuzzyB : PTable :=
  ⟨[⟨"x", .float64, .numeric "float64" [some (1 + 1 / 1000000000)]⟩]⟩

/-- Table with one `int64` column and no rows. -/
def tNoRows : PTable := ⟨[⟨"a", .int64, .numeric "int64" []⟩]⟩

/-- Table with one `int64` column holding a value and a null. -/
def tNullCells : PTable := ⟨[⟨"a", .int64, .numeric "int64" [some 1, none]⟩]⟩

/-- Two-string-column table whose first column repeats "a" on rows 1 and 2,
the spec's duplicate-detector example. -/
def tDupDemo : PTable :=
  ⟨[⟨"k", .utf8, .other "object" [some "a", some "a", some "b"]⟩,
    ⟨"v", .utf8, .other "object" [some "x", some "y", some "z"]⟩]⟩

/-- One-string-column pandas frame with two rows. -/
def dfTwoRows : DataFrame :=
  ⟨[("a", ColData.other "object" [some "x", some "y"])]⟩

lemma fuzzyCellB_iff (rtol atol : ℚ) (x y : Option ℚ) :
    Parquet.fuzzyCellB rtol atol x y = true ↔ FuzzyCellSpec rtol atol x y := by
  cases x <;> cases y <;> simp [Parquet.fuzzyCellB, FuzzyCellSpec]

lemma colClose_iff (rtol atol : ℚ) (c1 c2 : ColData) :
    Parquet.colClose rtol atol c1 c2 = true ↔ ColCloseSpec rtol atol c1 c2 := by
  cases c1 <;> cases c2 <;>
    simp [Parquet.colClose, ColCloseSpec, Parquet.allcloseQ, List.all_eq_true,
      fuzzyCellB_iff, ColData.numeric.injEq, ColData.other.injEq]

lemma dataframe_equal_fuzzy_iff (df1 df2 : DataFrame) (rtol atol : ℚ) :
    Parquet.dataframe_equal_fuzzy df1 df2 rtol atol = true ↔
      df1.columns = df2.columns ∧
        ∀ p ∈ df1.cols.zip df2.cols, ColCloseSpec rtol atol p.1.2 p.2.2 := by
  unfold Parquet.dataframe_equal_fuzzy
  by_cases h : df1.columns = df2.columns <;>
    simp [h, List.all_eq_true, colClose_iff]

/-- With `check_data` on, the comparator's verdict is the shape gate followed
by the data check alone; the schema flag and its result never reach `result`. -/
lemma compare_check_data_eq (t1 t2 : PTable) (cs fz : Bool) (rtol atol : ℚ) :
    Parquet.compare_parquet_files t1 t2 cs true fz rtol atol =
      if t1.numColumns = t2.numColumns ∧ t1.numRows = t2.numRows then
        some (if fz then Parquet.dataframe_equal_fuzzy t1.toPandas t2.toPandas rtol atol
              else decide (t1.toPandas = t2.toPandas))
      else some false := by
  unfold Parquet.compare_parquet_files
  by_cases h1 : t1.numColumns = t2.numColumns <;>
    by_cases h2 : t1.numRows = t2.numRows <;>
      simp [h1, h2]

lemma compare_check_data (t1 t2 : PTable) (cs fz : Bool) (rtol atol : ℚ) :
    Parquet.compare_parquet_files t1 t2 cs true fz rtol atol = some true ↔
      (t1.numColumns = t2.numColumns ∧ t1.numRows = t2.numRows) ∧
      (if fz then Parquet.dataframe_equal_fuzzy t1.toPandas t2.toPandas rtol atol
       else decide (t1.toPandas = t2.toPandas)) = true := by
  unfold Parquet.compare_parquet_files
  by_cases h1 : t1.numColumns = t2.numColumns <;>
    by_cases h2 : t1.numRows = t2.numRows <;>
      simp [h1, h2]

/-- With `check_data` off and `check_schema` on, the verdict is schema-and-
shape. -/
lemma compare_schema_only (t1 t2 : PTable) (fz : Bool) (rtol atol : ℚ) :
    Parquet.compare_parquet_files t1 t2 true false fz rtol atol = some true ↔
      Parquet.schemas_equal t1.schema t2.schema = true ∧
      (t1.numColumns = t2.numColumns ∧ t1.numRows = t2.numRows) := by
  unfold Parquet.compare_parquet_files
  by_cases h1 : t1.numColumns = t2.numColumns <;>
    by_cases h2 : t1.numRows = t2.numRows <;>
      simp [h1, h2]

lemma compare_csv_data_on (df1 df2 : DataFrame) (ch : Bool) :
    Csv.compare_csv_files df1 df2 ch true = true ↔
      df1.shape = df2.shape ∧ df1 = df2 := by
  unfold Csv.compare_csv_files
  by_cases h : df1.shape = df2.shape <;> simp [h]

lemma compare_csv_data_off (df1 df2 : DataFrame) (ch : Bool) :
    Csv.compare_csv_files df1 df2 ch false = true ↔
      (ch = true → df1.columns = df2.columns) ∧ df1.shape = df2.shape := by
  unfold Csv.compare_csv_files
  by_cases h : df1.shape = df2.shape <;> cases ch <;> simp [h]

/-! ### Spec-side reformulations of the analyser outputs -/

/-- Membership in a `map (· + 1)` of a filtered range, phrased with 1-based
numbers. -/
lemma mem_mapSucc_filter (p : ℕ → Bool) (N n : ℕ) :
    n ∈ ((List.range N).filter p).map (· + 1) ↔
      1 ≤ n ∧ n ≤ N ∧ p (n - 1) = true := by
  simp only [List.mem_map, List.mem_filter, List.mem_range]
  constructor
  · rintro ⟨i, ⟨hi, hp⟩, rfl⟩
    exact ⟨by omega, by omega, by simpa using hp⟩
  · rintro ⟨h1, h2, hp⟩
    exact ⟨n - 1, ⟨by omega, hp⟩, by omega⟩

lemma mem_foldl_ins (f : ℕ → RowKey) (l : List ℕ)
    (acc : List RowKey) (a : RowKey) :
    a ∈ l.foldl (fun acc i => if f i ∈ acc then acc else acc ++ [f i]) acc ↔
      a ∈ acc ∨ ∃ i ∈ l, f i = a := by
  induction l generalizing acc with
  | nil => simp
  | cons j l ih =>
    rw [List.foldl_cons, ih]
    by_cases h : f j ∈ acc
    · rw [if_pos h]
      constructor
      · rintro (ha | ⟨i, hi, hf⟩)
        · exact Or.inl ha
        · exact Or.inr ⟨i, List.mem_cons_of_mem _ hi, hf⟩
      · rintro (ha | ⟨i, hi, hf⟩)
        · exact Or.inl ha
        · rcases List.mem_cons.mp hi with rfl | hi2
          · exact Or.inl (hf ▸ h)
          · exact Or.inr ⟨i, hi2, hf⟩
    · rw [if_neg h]
      constructor
      · rintro (ha | ⟨i, hi, hf⟩)
        · rcases List.mem_append.mp ha with ha2 | ha2
          · exact Or.inl ha2
          · exact Or.inr ⟨j, List.mem_cons_self _ _,
              (List.mem_singleton.mp ha2).symm⟩
        · exact Or.inr ⟨i, List.mem_cons_of_mem _ hi, hf⟩
      · rintro (ha | ⟨i, hi, hf⟩)
        · exact Or.inl (List.mem_append.mpr (Or.inl ha))
        · rcases List.mem_cons.mp hi with rfl | hi2
          · exact Or.inl (List.mem_append.mpr
              (Or.inr (List.mem_singleton.mpr hf.symm)))
          · exact Or.inr ⟨i, hi2, hf⟩

lemma mem_keysUpTo (t : PTable) (kk n : ℕ) (key : RowKey) :
    key ∈ keysUpTo t kk n ↔ ∃ i ∈ List.range n, Parquet.rowKey t kk i = key := by
  have h := mem_foldl_ins (fun i => Parquet.rowKey t kk i) (List.range n) [] key
  simp only [List.not_mem_nil, false_or] at h
  unfold keysUpTo
  exact h

lemma keysUpTo_succ (t : PTable) (kk n : ℕ) :
    keysUpTo t kk (n + 1) =
      if Parquet.rowKey t kk n ∈ keysUpTo t kk n then keysUpTo t kk n
      else keysUpTo t kk n ++ [Parquet.rowKey t kk n] := by
  rw [keysUpTo, keysUpTo, List.range_succ, List.foldl_append,
    List.foldl_cons, List.foldl_nil]

lemma matchingRows_succ (t : PTable) (kk : ℕ) (key : RowKey) (n : ℕ) :
    matchingRows t kk key (n + 1) =
      matchingRows t kk key n ++
        (if Parquet.rowKey t kk n = key then [n + 1] else []) := by
  rw [matchingRows, matchingRows, List.range_succ, List.filter_append,
    List.map_append]
  by_cases h : Parquet.rowKey t kk n = key <;> simp [List.filter_cons, h]

lemma matchingRows_nil_of_not_mem (t : PTable) (kk n : ℕ) (key : RowKey)
    (h : key ∉ keysUpTo t kk n) : matchingRows t kk key n = [] := by
  rw [matchingRows]
  have : (List.range n).filter
      (fun i => decide (Parquet.rowKey t kk i = key)) = [] := by
    rw [List.filter_eq_nil_iff]
    intro i hi
    simp only [decide_eq_true_eq]
    intro hk
    exact h ((mem_keysUpTo t kk n key).mpr ⟨i, hi, hk⟩)
  rw [this, List.map_nil]

lemma addRow_groupsSpec (t : PTable) (kk n : ℕ) :
    Parquet.addRow (groupsSpec t kk n) (Parquet.rowKey t kk n) (n + 1) =
      groupsSpec t kk (n + 1) := by
  by_cases hmem : Parquet.rowKey t kk n ∈ keysUpTo t kk n
  · have hany : (groupsSpec t kk n).any
        (fun g => decide (g.1 = Parquet.rowKey t kk n)) = true := by
      rw [List.any_eq_true]
      exact ⟨(Parquet.rowKey t kk n,
        matchingRows t kk (Parquet.rowKey t kk n) n),
        List.mem_map.mpr ⟨_, hmem, rfl⟩, by simp⟩
    unfold Parquet.addRow
    rw [if_pos hany, groupsSpec, groupsSpec, keysUpTo_succ,
      if_pos hmem, List.map_map]
    refine List.map_congr_left (fun key _ => ?_)
    by_cases hk : key = Parquet.rowKey t kk n
    · simp only [Function.comp_apply, if_pos hk, matchingRows_succ,
        if_pos hk.symm]
    · have hk2 : Parquet.rowKey t kk n ≠ key := fun h => hk h.symm
      simp only [Function.comp_apply, if_neg hk, matchingRows_succ,
        if_neg hk2, List.append_nil]
  · have hany : (groupsSpec t kk n).any
        (fun g => decide (g.1 = Parquet.rowKey t kk n)) = false := by
      rw [List.any_eq_false]
      intro g hg
      obtain ⟨key2, hk2, rfl⟩ := List.mem_map.mp hg
      simp only [decide_eq_true_eq]
      intro hke
      exact hmem (hke ▸ hk2)
    unfold Parquet.addRow
    rw [if_neg (by simp [hany]),
      groupsSpec, groupsSpec, keysUpTo_succ, if_neg hmem, List.map_append]
    congr 1
    · refine List.map_congr_left (fun key hkey => ?_)
      have hne : Parquet.rowKey t kk n ≠ key := fun h => hmem (h ▸ hkey)
      rw [matchingRows_succ, if_neg hne, List.append_nil]
    · rw [List.map_singleton, matchingRows_succ, if_pos rfl,
        matchingRows_nil_of_not_mem t kk n _ hmem, List.nil_append]

lemma histSpec_succ (t : PTable) (n c : ℕ) :
    histSpec t (n + 1) c =
      if c = Parquet.nonNullFields t n then histSpec t n c + 1
      else histSpec t n c := by
  rw [histSpec, histSpec, List.range_succ, List.countP_append]
  by_cases h : Parquet.nonNullFields t n = c
  · rw [if_pos h.symm]
    simp [List.countP_cons, h]
  · rw [if_neg (fun hc => h hc.symm)]
    simp [List.countP_cons, h]

lemma sparseSpec_succ (t : PTable) (n : ℕ) :
    sparseSpec t (n + 1) =
      if (Parquet.nonNullFields t n : ℚ) < (t.numColumns : ℚ) * (1 / 2)
      then sparseSpec t n ++ [n + 1] else sparseSpec t n := by
  rw [sparseSpec, sparseSpec, List.range_succ, List.filter_append,
    List.map_append]
  by_cases h : (Parquet.nonNullFields t n : ℚ) < (t.numColumns : ℚ) * (1 / 2)
  · rw [if_pos h, List.filter_cons, if_pos (decide_eq_true h), List.filter_nil,
      List.map_cons, List.map_nil]
  · rw [if_neg h, List.filter_cons, if_neg (by simpa using h), List.filter_nil,
      List.map_nil, List.append_nil]

lemma malformedSpec_succ (t : PTable) (n : ℕ) :
    malformedSpec t (n + 1) =
      if Parquet.nonNullFields t n ≠ t.numColumns
      then malformedSpec t n ++ [n + 1] else malformedSpec t n := by
  rw [malformedSpec, malformedSpec, List.range_succ, List.filter_append,
    List.map_append]
  by_cases h : Parquet.nonNullFields t n = t.numColumns
  · rw [if_neg (by simpa using h)]
    simp [List.filter_cons, h]
  · rw [if_pos h]
    simp [List.filter_cons, h]

lemma nullCountSpec_succ (t : PTable) (nm : String) (n : ℕ) :
    nullCountSpec t nm (n + 1) =
      if t.lookupCell nm n = none then nullCountSpec t nm n + 1
      else nullCountSpec t nm n := by
  rw [nullCountSpec, nullCountSpec, List.range_succ, List.countP_append]
  by_cases h : t.lookupCell nm n = none <;> simp [List.countP_cons, h]

lemma foldl_analyseStep (t : PTable) (ck : Option ℕ) (n : ℕ) :
    (List.range n).foldl (Parquet.analyseStep t ck)
      ⟨fun _ => 0, [], t.schemaNames.map (fun nm => (nm, 0)), [], []⟩ =
      ⟨fun c => histSpec t n c, sparseSpec t n,
        t.schemaNames.map (fun nm => (nm, nullCountSpec t nm n)),
        malformedSpec t n,
        match ck with
        | some kk => if 0 < kk then groupsSpec t kk n else []
        | none => []⟩ := by
  induction n with
  | zero =>
    simp only [List.range_zero, List.foldl_nil, Parquet.PqAnalysis.mk.injEq]
    refine ⟨funext fun c => by simp [histSpec], by simp [sparseSpec], ?_,
      by simp [malformedSpec], ?_⟩
    · refine congrArg (t.schemaNames.map ·) (funext fun nm => ?_)
      simp [nullCountSpec]
    · cases ck with
      | none => rfl
      | some kk =>
        by_cases hkk : 0 < kk <;>
          simp [hkk, groupsSpec, keysUpTo]
  | succ n ih =>
    rw [List.range_succ, List.foldl_append, ih, List.foldl_cons, List.foldl_nil]
    simp only [Parquet.analyseStep, Parquet.PqAnalysis.mk.injEq]
    refine ⟨funext fun c => (histSpec_succ t n c).symm,
      (sparseSpec_succ t n).symm, ?_, (malformedSpec_succ t n).symm, ?_⟩
    · rw [List.map_map]
      refine congrArg (t.schemaNames.map ·) (funext fun nm => ?_)
      simp only [Function.comp_apply]
      rw [nullCountSpec_succ]
    · cases ck with
      | none => rfl
      | some kk =>
        by_cases hkk : 0 < kk
        · simp only [hkk, if_true, addRow_groupsSpec]
        · simp only [hkk, if_false]

/-- The `analyse_parquet` loop computes exactly the spec-side tallies. -/
lemma analyse_parquet_spec (t : PTable) (ck : Option ℕ) :
    Parquet.analyse_parquet t ck =
      ⟨fun c => histSpec t t.numRows c, sparseSpec t t.numRows,
        t.schemaNames.map (fun nm => (nm, nullCountSpec t nm t.numRows)),
        malformedSpec t t.numRows,
        match ck with
        | some kk => if 0 < kk then groupsSpec t kk t.numRows else []
        | none => []⟩ :=
  foldl_analyseStep t ck t.numRows

lemma mem_matchingRows (t : PTable) (kk : ℕ) (key : RowKey) (n r : ℕ) :
    r ∈ matchingRows t kk key n ↔
      1 ≤ r ∧ r ≤ n ∧ Parquet.rowKey t kk (r - 1) = key := by
  rw [matchingRows, mem_mapSucc_filter]
  simp only [decide_eq_true_eq]

lemma matchingRows_sorted (t : PTable) (kk : ℕ) (key : RowKey) (n : ℕ) :
    (matchingRows t kk key n).Pairwise (· < ·) := by
  rw [matchingRows]
  have hp : ((List.range n).filter
      (fun i => decide (Parquet.rowKey t kk i = key))).Pairwise (· < ·) :=
    List.Pairwise.sublist (List.filter_sublist _) (List.pairwise_lt_range n)
  exact hp.map _ (fun a b h => by omega)

lemma matchingRows_ne_nil (t : PTable) (kk n : ℕ) (key : RowKey)
    (h : key ∈ keysUpTo t kk n) : matchingRows t kk key n ≠ [] := by
  obtain ⟨i, hi, hki⟩ := (mem_keysUpTo t kk n key).mp h
  intro hnil
  have hmem : i + 1 ∈ matchingRows t kk key n :=
    (mem_matchingRows t kk key n (i + 1)).mpr
      ⟨by omega, by have := List.mem_range.mp hi; omega, by simpa using hki⟩
  rw [hnil] at hmem
  exact absurd hmem (List.not_mem_nil _)

lemma headI_mem_of_ne_nil {l : List ℕ} (h : l ≠ []) : l.headI ∈ l := by
  cases l with
  | nil => exact absurd rfl h
  | cons a l => exact List.mem_cons_self _ _

lemma headI_append_of_ne_nil {l m : List ℕ} (h : l ≠ []) :
    (l ++ m).headI = l.headI := by
  cases l with
  | nil => exact absurd rfl h
  | cons a l => rfl

lemma keysUpTo_pairwise (t : PTable) (kk n : ℕ) :
    (keysUpTo t kk n).Pairwise (fun k1 k2 =>
      (matchingRows t kk k1 n).headI < (matchingRows t kk k2 n).headI) := by
  induction n with
  | zero => simp [keysUpTo]
  | succ n ih =>
    have hpres : ∀ key ∈ keysUpTo t kk n,
        (matchingRows t kk key (n + 1)).headI = (matchingRows t kk key n).headI := by
      intro key hkey
      rw [matchingRows_succ]
      exact headI_append_of_ne_nil (matchingRows_ne_nil t kk n key hkey)
    have hbound : ∀ key ∈ keysUpTo t kk n, (matchingRows t kk key n).headI ≤ n := by
      intro key hkey
      have hm := headI_mem_of_ne_nil (matchingRows_ne_nil t kk n key hkey)
      have := (mem_matchingRows t kk key n _).mp hm
      omega
    rw [keysUpTo_succ]
    by_cases hmem : Parquet.rowKey t kk n ∈ keysUpTo t kk n
    · rw [if_pos hmem]
      refine List.Pairwise.imp_of_mem ?_ ih
      intro a b ha hb hr
      rw [hpres a ha, hpres b hb]
      exact hr
    · rw [if_neg hmem, List.pairwise_append]
      refine ⟨List.Pairwise.imp_of_mem (fun ha hb hr => ?_) ih,
        List.pairwise_singleton _ _, ?_⟩
      · rw [hpres _ ha, hpres _ hb]
        exact hr
      · intro a ha b hb
        rw [List.mem_singleton] at hb
        subst hb
        have hnew : matchingRows t kk (Parquet.rowKey t kk n) (n + 1) = [n + 1] := by
          rw [matchingRows_succ, if_pos rfl,
            matchingRows_nil_of_not_mem t kk n _ hmem, List.nil_append]
        rw [hpres a ha, hnew]
        have hb2 := hbound a ha
        show (matchingRows t kk a n).headI < n + 1
        omega

lemma groupsSpec_pairwise_headI (t : PTable) (kk n : ℕ) :
    (groupsSpec t kk n).Pairwise (fun g1 g2 => g1.2.headI < g2.2.headI) := by
  rw [groupsSpec, List.pairwise_map]
  exact keysUpTo_pairwise t kk n

/-! ### Claims C1, C3, C10 -/

/-- C1 (counterexample): two parquet sources whose schemas do NOT match (same
field name `a`, declared types int32 vs int64) but whose shapes and data
match are reported IDENTICAL (`some true`) by `compare_parquet_files` with
`check_schema=true` and the default data options, contradicting the claim
that the verdict is IDENTICAL only if the schema check passed. -/
theorem claim_C1_counterexample :
    Parquet.schemas_equal tSchemaA.schema tSchemaB.schema = false ∧
    tSchemaA.numColumns = tSchemaB.numColumns ∧
    tSchemaA.numRows = tSchemaB.numRows ∧
    Parquet.compare_parquet_files tSchemaA tSchemaB true true true
      (1 / 1000000) (1 / 100000000) = some true := by
  refine ⟨by decide, by decide, by decide, ?_⟩
  have hf : Parquet.dataframe_equal_fuzzy tSchemaA.toPandas tSchemaB.toPandas
      (1 / 1000000) (1 / 100000000) = true := by
    norm_num [Parquet.dataframe_equal_fuzzy, DataFrame.columns, tSchemaA,
      tSchemaB, PTable.toPandas, Parquet.colClose, Parquet.allcloseQ,
      Parquet.fuzzyCellB]
  rw [compare_check_data_eq, if_pos ⟨by decide, by decide⟩, if_pos rfl, hf]

/-- C1 (amended): for CSV, the IDENTICAL verdict with `check_data` holds iff
headers (when checked), shape and data all match, as claimed.  For parquet
with `check_data=true`, the schema result is ignored: the verdict is IDENTICAL
iff the shapes match and the (fuzzy or exact) data check passes, for any
`check_schema`; with `check_data=false` and `check_schema=true` it is IDENTICAL
iff schema and shape match. -/
theorem claim_C1_amended (t1 t2 : PTable) (cs fz : Bool) (rtol atol : ℚ)
    (df1 df2 : DataFrame) (ch : Bool) :
    (Parquet.compare_parquet_files t1 t2 cs true fz rtol atol = some true ↔
      (t1.numColumns = t2.numColumns ∧ t1.numRows = t2.numRows) ∧
      (if fz then Parquet.dataframe_equal_fuzzy t1.toPandas t2.toPandas rtol atol
       else decide (t1.toPandas = t2.toPandas)) = true) ∧
    (Parquet.compare_parquet_files t1 t2 true false fz rtol atol = some true ↔
      Parquet.schemas_equal t1.schema t2.schema = true ∧
      (t1.numColumns = t2.numColumns ∧ t1.numRows = t2.numRows)) ∧
    (Csv.compare_csv_files df1 df2 ch true = true ↔
      (ch = true → df1.columns = df2.columns) ∧ df1.shape = df2.shape ∧ df1 = df2) ∧
    (Csv.compare_csv_files df1 df2 ch false = true ↔
      (ch = true → df1.columns = df2.columns) ∧ df1.shape = df2.shape) := by
  refine ⟨compare_check_data t1 t2 cs fz rtol atol,
          compare_schema_only t1 t2 fz rtol atol, ?_,
          compare_csv_data_off df1 df2 ch⟩
  rw [compare_csv_data_on df1 df2 ch]
  constructor
  · rintro ⟨hs, he⟩
    exact ⟨fun _ => by rw [he], hs, he⟩
  · rintro ⟨_, hs, he⟩
    exact ⟨hs, he⟩

/-- C3: when shapes match and `check_data=true`, the fuzzy comparator judges
data equal exactly under the spec's cell rule (numeric columns cell-by-cell
with `|a - b| ≤ abs_tol + rel_tol * |b|`, nulls/NaNs equal only to each other,
non-numeric columns exactly), and with `fuzzy=false` it requires exact frame
equality including dtypes. -/
theorem claim_C3_fuzzy_rule (t1 t2 : PTable) (cs : Bool) (rtol atol : ℚ) :
    (Parquet.compare_parquet_files t1 t2 cs true true rtol atol = some true ↔
      (t1.numColumns = t2.numColumns ∧ t1.numRows = t2.numRows) ∧
      t1.toPandas.columns = t2.toPandas.columns ∧
      ∀ p ∈ t1.toPandas.cols.zip t2.toPandas.cols,
        ColCloseSpec rtol atol p.1.2 p.2.2) ∧
    (Parquet.compare_parquet_files t1 t2 cs true false rtol atol = some true ↔
      (t1.numColumns = t2.numColumns ∧ t1.numRows = t2.numRows) ∧
      t1.toPandas = t2.toPandas) := by
  constructor
  · rw [compare_check_data t1 t2 cs true rtol atol, if_pos rfl,
      dataframe_equal_fuzzy_iff, and_assoc]
  · rw [compare_check_data t1 t2 cs false rtol atol, if_neg (by simp),
      decide_eq_true_eq]

/-- C3 (witness): a pair of sources with identical schema and shape and one
cell differing by `1e-9` reports `data_match=true` under
`rel_tol=1e-6, abs_tol=1e-8` with fuzzy comparison and `false` without. -/
theorem claim_C3_witness :
    ((Parquet.compare_parquet_files tFuzzyA tFuzzyB true true true
        (1 / 1000000) (1 / 100000000) = some true ↔
      (tFuzzyA.numColumns = tFuzzyB.numColumns ∧
        tFuzzyA.numRows = tFuzzyB.numRows) ∧
      tFuzzyA.toPandas.columns = tFuzzyB.toPandas.columns ∧
      ∀ p ∈ tFuzzyA.toPandas.cols.zip tFuzzyB.toPandas.cols,
        ColCloseSpec (1 / 1000000) (1 / 100000000) p.1.2 p.2.2) ∧
     (Parquet.compare_parquet_files tFuzzyA tFuzzyB true true false
        (1 / 1000000) (1 / 100000000) = some true ↔
      (tFuzzyA.numColumns = tFuzzyB.numColumns ∧
        tFuzzyA.numRows = tFuzzyB.numRows) ∧
      tFuzzyA.toPandas = tFuzzyB.toPandas)) ∧
    Parquet.compare_parquet_files tFuzzyA tFuzzyB true true true
      (1 / 1000000) (1 / 100000000) = some true ∧
    Parquet.compare_parquet_files tFuzzyA tFuzzyB true true false
      (1 / 1000000) (1 / 100000000) = some false := by
  refine ⟨claim_C3_fuzzy_rule tFuzzyA tFuzzyB true (1 / 1000000) (1 / 100000000),
    ?_, ?_⟩
  · have hf : Parquet.dataframe_equal_fuzzy tFuzzyA.toPandas tFuzzyB.toPandas
        (1 / 1000000) (1 / 100000000) = true := by
      norm_num [Parquet.dataframe_equal_fuzzy, DataFrame.columns, tFuzzyA,
        tFuzzyB, PTable.toPandas, Parquet.colClose, Parquet.allcloseQ,
        Parquet.fuzzyCellB]
      rw [abs_of_pos (by norm_num), abs_of_pos (by norm_num)]
      norm_num
    rw [compare_check_data_eq, if_pos ⟨by decide, by decide⟩, if_pos rfl, hf]
  · have hne : ¬ (tFuzzyA.toPandas = tFuzzyB.toPandas) := by
      simp only [tFuzzyA, tFuzzyB, PTable.toPandas, List.map_cons, List.map_nil,
        DataFrame.mk.injEq, List.cons.injEq, Prod.mk.injEq,
        ColData.numeric.injEq, Option.some.injEq, and_true, true_and]
      norm_num
    rw [compare_check_data_eq, if_pos ⟨by decide, by decide⟩,
      if_neg (by simp), decide_eq_false hne]

/-- C10: with `check_schema=false` and `check_data=false` on two sources of
equal shape, `compare_parquet_files` returns no verdict: the final result
expression reads the never-assigned schema flag, modelled here as `none`
(the `UnboundLocalError`). -/
theorem claim_C10_unbound (t1 t2 : PTable) (fz : Bool) (rtol atol : ℚ)
    (h : t1.numColumns = t2.numColumns ∧ t1.numRows = t2.numRows) :
    Parquet.compare_parquet_files t1 t2 false false fz rtol atol = none := by
  unfold Parquet.compare_parquet_files
  simp [h.1, h.2]

/-- C10 (witness): the undefined-verdict path at a concrete equal-shape pair. -/
theorem claim_C10_witness :
    (tSchemaA.numColumns = tSchemaB.numColumns ∧
      tSchemaA.numRows = tSchemaB.numRows) ∧
    Parquet.compare_parquet_files tSchemaA tSchemaB false false true
      (1 / 1000000) (1 / 100000000) = none :=
  ⟨⟨by decide, by decide⟩,
    claim_C10_unbound tSchemaA tSchemaB true (1 / 1000000) (1 / 100000000)
      ⟨by decide, by decide⟩⟩

/-! ### Claims C4, C6, C7 -/

/-- C7: `analyse_parquet` flags row `n` (1-based) as malformed exactly when
its non-null field count differs from the schema width, and as sparse exactly
when that count is below `0.5 ×` the schema width, independently and for any
duplicate-check option. -/
theorem claim_C7_malformed_sparse (t : PTable) (ck : Option ℕ) :
    (∀ n, n ∈ (Parquet.analyse_parquet t ck).malformed ↔
        1 ≤ n ∧ n ≤ t.numRows ∧
          Parquet.nonNullFields t (n - 1) ≠ t.numColumns) ∧
    (∀ n, n ∈ (Parquet.analyse_parquet t ck).sparse ↔
        1 ≤ n ∧ n ≤ t.numRows ∧
          ((Parquet.nonNullFields t (n - 1) : ℚ) <
            (t.numColumns : ℚ) * (1 / 2))) := by
  rw [analyse_parquet_spec]
  constructor
  · intro n
    show n ∈ malformedSpec t t.numRows ↔ _
    rw [malformedSpec, mem_mapSucc_filter]
    simp only [decide_eq_true_eq]
  · intro n
    show n ∈ sparseSpec t t.numRows ↔ _
    rw [sparseSpec, mem_mapSucc_filter]
    simp only [decide_eq_true_eq]

/-- C7 (witness): the characterization applied to a concrete table with one
value and one null, whose single row is both malformed and sparse. -/
theorem claim_C7_witness :
    ((∀ n, n ∈ (Parquet.analyse_parquet tNullCells none).malformed ↔
        1 ≤ n ∧ n ≤ tNullCells.numRows ∧
          Parquet.nonNullFields tNullCells (n - 1) ≠ tNullCells.numColumns) ∧
     (∀ n, n ∈ (Parquet.analyse_parquet tNullCells none).sparse ↔
        1 ≤ n ∧ n ≤ tNullCells.numRows ∧
          ((Parquet.nonNullFields tNullCells (n - 1) : ℚ) <
            (tNullCells.numColumns : ℚ) * (1 / 2)))) :=
  claim_C7_malformed_sparse tNullCells none

/-- C4 (counterexample): on a typed source with a column but zero rows the
null-percentage report is not computed at all: the per-column percentage
division raises `ZeroDivisionError` (modelled as `none`), contradicting the
claim that it is computed for every typed source including one with zero
rows. -/
theorem claim_C4_counterexample :
    tNoRows.numRows = 0 ∧ tNoRows.cols ≠ [] ∧
    Parquet.column_null_percentages tNoRows = none := by
  refine ⟨rfl, by decide, ?_⟩
  rw [Parquet.column_null_percentages, if_pos ⟨by decide, rfl⟩]

/-- C4 (amended): for every typed source with at least one row, the analyser
reports for each column the percentage `(rows with a null in that column) /
row_count * 100`, whose fraction `percentage / 100` lies in `[0, 1]`; a
zero-row source with columns instead fails with a division-by-zero error. -/
theorem claim_C4_null_percentage (t : PTable) (h : 0 < t.numRows) :
    Parquet.column_null_percentages t =
      some (t.cols.map (fun c => (c.name,
        ((nullCountSpec t c.name t.numRows : ℚ) / (t.numRows : ℚ)) * 100))) ∧
    ∀ c ∈ t.cols,
      0 ≤ (nullCountSpec t c.name t.numRows : ℚ) / (t.numRows : ℚ) ∧
      (nullCountSpec t c.name t.numRows : ℚ) / (t.numRows : ℚ) ≤ 1 := by
  constructor
  · have hnz : ¬ (t.cols ≠ [] ∧ t.numRows = 0) := by
      rintro ⟨-, h0⟩
      omega
    rw [Parquet.column_null_percentages, if_neg hnz, analyse_parquet_spec]
    show some ((t.schemaNames.map (fun nm => (nm, nullCountSpec t nm t.numRows))).map _) = _
    rw [PTable.schemaNames, List.map_map, List.map_map]
    rfl
  · intro c _
    have hcount : nullCountSpec t c.name t.numRows ≤ t.numRows := by
      rw [nullCountSpec]
      exact le_trans (List.countP_le_length _) (le_of_eq (List.length_range _))
    constructor
    · positivity
    · rw [div_le_one (by exact_mod_cast h)]
      exact_mod_cast hcount

/-- C4 (witness): the amended claim at a one-column table with rows `[1,
null]`. -/
theorem claim_C4_witness :
    0 < tNullCells.numRows ∧
    (Parquet.column_null_percentages tNullCells =
      some (tNullCells.cols.map (fun c => (c.name,
        ((nullCountSpec tNullCells c.name tNullCells.numRows : ℚ) /
          (tNullCells.numRows : ℚ)) * 100))) ∧
    ∀ c ∈ tNullCells.cols,
      0 ≤ (nullCountSpec tNullCells c.name tNullCells.numRows : ℚ) /
          (tNullCells.numRows : ℚ) ∧
      (nullCountSpec tNullCells c.name tNullCells.numRows : ℚ) /
          (tNullCells.numRows : ℚ) ≤ 1) :=
  ⟨by decide, claim_C4_null_percentage tNullCells (by decide)⟩

/-- C6: for any key width `kk ≥ 1`, the duplicate detector groups rows by the
tuple of their first `min(kk, schema width)` column values in schema order
(null equal only to null): the reported groups are exactly the accumulated
groups with at least two members; every group's member list is the ascending
list of 1-based numbers of the rows whose key equals the group key (so two
rows are in one group iff their keys are equal); and the reported groups are
ordered by the first encounter of their key. -/
theorem claim_C6_duplicates (t : PTable) (kk : ℕ) (hk : 1 ≤ kk) :
    (∀ g, g ∈ Parquet.duplicate_groups t kk ↔
        g ∈ (Parquet.analyse_parquet t (some kk)).dupGroups ∧ 2 ≤ g.2.length) ∧
    (∀ g ∈ (Parquet.analyse_parquet t (some kk)).dupGroups,
        g.1.length = min kk t.numColumns ∧
        (∀ r, r ∈ g.2 ↔ 1 ≤ r ∧ r ≤ t.numRows ∧
            Parquet.rowKey t kk (r - 1) = g.1) ∧
        g.2.Pairwise (· < ·)) ∧
    (∀ i j, i < t.numRows → j < t.numRows →
        ((∃ g ∈ (Parquet.analyse_parquet t (some kk)).dupGroups,
            i + 1 ∈ g.2 ∧ j + 1 ∈ g.2) ↔
          Parquet.rowKey t kk i = Parquet.rowKey t kk j)) ∧
    (Parquet.duplicate_groups t kk).Pairwise
      (fun g1 g2 => g1.2.headI < g2.2.headI) := by
  have hdup : (Parquet.analyse_parquet t (some kk)).dupGroups =
      groupsSpec t kk t.numRows := by
    rw [analyse_parquet_spec]
    show (if 0 < kk then groupsSpec t kk t.numRows else []) = _
    rw [if_pos (show 0 < kk from hk)]
  refine ⟨?_, ?_, ?_, ?_⟩
  · intro g
    unfold Parquet.duplicate_groups
    rw [List.mem_filter]
    simp only [decide_eq_true_eq]
    constructor
    · rintro ⟨h1, h2⟩
      exact ⟨h1, by omega⟩
    · rintro ⟨h1, h2⟩
      exact ⟨h1, by omega⟩
  · intro g hg
    rw [hdup, groupsSpec] at hg
    obtain ⟨key, hkey, rfl⟩ := List.mem_map.mp hg
    refine ⟨?_, ?_, matchingRows_sorted t kk key t.numRows⟩
    · obtain ⟨i, _, hki⟩ := (mem_keysUpTo t kk t.numRows key).mp hkey
      rw [← hki, Parquet.rowKey, List.length_map, List.length_range]
    · intro r
      exact mem_matchingRows t kk key t.numRows r
  · intro i j hi hj
    constructor
    · rintro ⟨g, hg, hgi, hgj⟩
      rw [hdup, groupsSpec] at hg
      obtain ⟨key, _, rfl⟩ := List.mem_map.mp hg
      have h1 := ((mem_matchingRows t kk key t.numRows _).mp hgi).2.2
      have h2 := ((mem_matchingRows t kk key t.numRows _).mp hgj).2.2
      simp only [Nat.add_sub_cancel] at h1 h2
      rw [h1, h2]
    · intro hij
      refine ⟨(Parquet.rowKey t kk i,
          matchingRows t kk (Parquet.rowKey t kk i) t.numRows), ?_, ?_, ?_⟩
      · rw [hdup, groupsSpec]
        exact List.mem_map.mpr ⟨_,
          (mem_keysUpTo t kk t.numRows _).mpr ⟨i, List.mem_range.mpr hi, rfl⟩, rfl⟩
      · exact (mem_matchingRows t kk _ t.numRows _).mpr
          ⟨by omega, by omega, by simp⟩
      · exact (mem_matchingRows t kk _ t.numRows _).mpr
          ⟨by omega, by omega, by simpa using hij.symm⟩
  · unfold Parquet.duplicate_groups
    rw [hdup]
    exact List.Pairwise.sublist (List.filter_sublist _)
      (groupsSpec_pairwise_headI t kk t.numRows)

/-- C6 (witness): the duplicate-detector characterization at the spec's
example (rows with leading values "a", "a", "b" and key width 1), together
with the concrete report: one group, key ("a",), rows 1 and 2. -/
theorem claim_C6_witness :
    Parquet.duplicate_groups tDupDemo 1 =
      [([some (PVal.str "a")], [1, 2])] ∧
    ((∀ g, g ∈ Parquet.duplicate_groups tDupDemo 1 ↔
        g ∈ (Parquet.analyse_parquet tDupDemo (some 1)).dupGroups ∧
          2 ≤ g.2.length) ∧
    (∀ g ∈ (Parquet.analyse_parquet tDupDemo (some 1)).dupGroups,
        g.1.length = min 1 tDupDemo.numColumns ∧
        (∀ r, r ∈ g.2 ↔ 1 ≤ r ∧ r ≤ tDupDemo.numRows ∧
            Parquet.rowKey tDupDemo 1 (r - 1) = g.1) ∧
        g.2.Pairwise (· < ·)) ∧
    (∀ i j, i < tDupDemo.numRows → j < tDupDemo.numRows →
        ((∃ g ∈ (Parquet.analyse_parquet tDupDemo (some 1)).dupGroups,
            i + 1 ∈ g.2 ∧ j + 1 ∈ g.2) ↔
          Parquet.rowKey tDupDemo 1 i = Parquet.rowKey tDupDemo 1 j)) ∧
    (Parquet.duplicate_groups tDupDemo 1).Pairwise
      (fun g1 g2 => g1.2.headI < g2.2.headI)) := by
  refine ⟨?_, claim_C6_duplicates tDupDemo 1 (by decide)⟩
  have hdup : (Parquet.analyse_parquet tDupDemo (some 1)).dupGroups =
      groupsSpec tDupDemo 1 tDupDemo.numRows := by
    rw [analyse_parquet_spec]
    show (if 0 < 1 then groupsSpec tDupDemo 1 tDupDemo.numRows else []) = _
    rw [if_pos Nat.one_pos]
  unfold Parquet.duplicate_groups
  rw [hdup]
  decide

/-! ### Windowed-view and locator lemmas -/

lemma sorted_mapSucc_filter (p : ℕ → Bool) (N : ℕ) :
    (((List.range N).filter p).map (· + 1)).Pairwise (· < ·) := by
  have hp : ((List.range N).filter p).Pairwise (· < ·) :=
    List.Pairwise.sublist (List.filter_sublist _) (List.pairwise_lt_range N)
  exact hp.map _ (fun a b h => by omega)

lemma windowedRows_clamp (count N : ℕ) :
    (if count > N then N else count) = min count N := by
  split <;> omega

lemma windowedRows_head {α : Type} (N : ℕ) (row : ℕ → α) (count : ℕ)
    (h : count ≤ N) :
    windowedRows N row count false =
      (List.range count).map (fun i => (i + 1, row i)) := by
  simp only [windowedRows, if_neg (by omega : ¬ count > N), Bool.false_eq_true,
    if_false, Nat.zero_add]

lemma windowedRows_tail {α : Type} (N : ℕ) (row : ℕ → α) (n : ℕ) (h : n ≤ N) :
    windowedRows N row (N - n) true =
      (List.range (N - n)).map (fun i => (n + i + 1, row (n + i))) := by
  have h2 : ¬ N - n > N := by omega
  have hs : N - (N - n) = n := by omega
  simp only [windowedRows, if_neg h2, if_true, hs]

lemma windowedRows_partition {α : Type} (N : ℕ) (row : ℕ → α) (n : ℕ)
    (h : n ≤ N) :
    windowedRows N row n false ++ windowedRows N row (N - n) true =
      (List.range N).map (fun i => (i + 1, row i)) := by
  rw [windowedRows_head N row n h, windowedRows_tail N row n h]
  have hN : List.range N = List.range (n + (N - n)) := by
    congr 1
    omega
  rw [hN, List.range_add, List.map_append, List.map_map]
  rfl

lemma drop_range_eq (N m : ℕ) (h : m ≤ N) :
    (List.range N).drop m = (List.range (N - m)).map (fun i => m + i) := by
  have hN : List.range N = List.range (m + (N - m)) := by
    congr 1
    omega
  rw [hN, List.range_add]
  have hd := List.drop_left (List.range m)
    ((List.range (N - m)).map (fun x => m + x))
  rw [List.length_range] at hd
  exact hd

lemma windowedRows_head_rows {α : Type} (N : ℕ) (row : ℕ → α) (count : ℕ) :
    (windowedRows N row count false).map Prod.snd =
      ((List.range N).map row).take (min count N) := by
  simp only [windowedRows, windowedRows_clamp, Bool.false_eq_true, if_false]
  rw [List.map_map, ← List.map_take, List.take_range]
  have hmm : min count N ⊓ N = min count N := by omega
  rw [hmm]
  simp

lemma windowedRows_tail_rows {α : Type} (N : ℕ) (row : ℕ → α) (count : ℕ) :
    (windowedRows N row count true).map Prod.snd =
      ((List.range N).map row).drop (N - min count N) := by
  simp only [windowedRows, windowedRows_clamp, if_true]
  rw [List.map_map, ← List.map_drop,
    drop_range_eq N (N - min count N) (by omega)]
  have hc : N - (N - min count N) = min count N := by omega
  rw [hc, List.map_map]
  rfl

lemma windowedRows_head_numbers {α : Type} (N : ℕ) (row : ℕ → α) (n : ℕ)
    (h : n ≤ N) :
    (windowedRows N row n false).map Prod.fst = (List.range n).map (· + 1) := by
  rw [windowedRows_head N row n h, List.map_map]
  rfl

lemma windowedRows_tail_numbers {α : Type} (N : ℕ) (row : ℕ → α) (n : ℕ)
    (h : n ≤ N) :
    (windowedRows N row (N - n) true).map Prod.fst =
      (List.range (N - n)).map (fun i => n + i + 1) := by
  rw [windowedRows_tail N row n h, List.map_map]
  rfl

lemma csv_foldl_hist : ∀ (l : List (ℕ × String)) (s : Csv.CsvAnalysis) (c : ℕ),
    (l.foldl Csv.csvScanStep s).hist c =
      s.hist c + l.countP (fun p => decide ((Csv.strFields p.2).length = c)) := by
  intro l
  induction l with
  | nil =>
    intro s c
    simp
  | cons q l ih =>
    intro s c
    rw [List.foldl_cons, ih, List.countP_cons]
    simp only [Csv.csvScanStep]
    by_cases h : c = (Csv.strFields q.2).length
    · rw [if_pos h, if_pos (decide_eq_true h.symm)]
      omega
    · rw [if_neg h,
        if_neg (by simpa using fun hc : (Csv.strFields q.2).length = c => h hc.symm)]
      omega

lemma csv_foldl_expected : ∀ (l : List (ℕ × String)) (s : Csv.CsvAnalysis),
    (l.foldl Csv.csvScanStep s).expected =
      (match s.expected with
       | some e => some e
       | none => l.head?.map (fun p => (Csv.strFields p.2).length)) := by
  intro l
  induction l with
  | nil =>
    intro s
    cases h : s.expected <;> simp [h]
  | cons q l ih =>
    intro s
    rw [List.foldl_cons, ih]
    cases h : s.expected with
    | some e => simp [Csv.csvScanStep, h]
    | none => simp [Csv.csvScanStep, h]

lemma csv_foldl_malformed_some : ∀ (l : List (ℕ × String)) (hist0 : ℕ → ℕ)
    (e : ℕ) (m : List ℕ),
    (l.foldl Csv.csvScanStep ⟨hist0, some e, m⟩).malformed =
      m ++ (l.filter
        (fun p => decide ((Csv.strFields p.2).length ≠ e))).map Prod.fst := by
  intro l
  induction l with
  | nil =>
    intro hist0 e m
    simp
  | cons q l ih =>
    intro hist0 e m
    rw [List.foldl_cons]
    simp only [Csv.csvScanStep, Option.getD_some]
    rw [List.filter_cons]
    by_cases h : (Csv.strFields q.2).length ≠ e
    · rw [if_pos h, if_pos (decide_eq_true h), ih, List.map_cons,
        List.append_assoc, List.singleton_append]
    · rw [if_neg h, if_neg (by simpa using h), ih]

lemma csv_foldl_malformed_none (l : List (ℕ × String)) (hist0 : ℕ → ℕ)
    (m : List ℕ) :
    (l.foldl Csv.csvScanStep ⟨hist0, none, m⟩).malformed =
      m ++ (match l with
            | [] => []
            | q :: rest => (rest.filter (fun p =>
                decide ((Csv.strFields p.2).length ≠
                  (Csv.strFields q.2).length))).map Prod.fst) := by
  cases l with
  | nil => simp
  | cons q rest =>
    rw [List.foldl_cons]
    simp only [Csv.csvScanStep, Option.getD_none]
    rw [csv_foldl_malformed_some]

/-! ### Claims C2, C5, C8, C9 -/

/-- C2 (code bug): on the two-line file `a,b` / `1,2` (header plus one data
row), the predicate search reports the data row as Row 1, but raw-mode
`show_records` and `show_row_with_context` print the HEADER text `a,b` under
the label Row 1 (an off-by-one that ignores the header line), and the raw
substring search reports the same data row as Row 2; the raw text of the data
row, `1,2`, is physical line index 1.  The operations disagree on the same
row, contradicting the claimed invariant. -/
theorem claim_C2_row_numbering :
    Csv.find_rows_by_column_values (Csv.read_csv ["a,b", "1,2"])
      [("a", PVal.str "1")] = some [1] ∧
    Csv.show_records_raw ["a,b", "1,2"] 1 false = [(1, some "a,b")] ∧
    Csv.show_row_with_context_raw ["a,b", "1,2"] 1 0 = [(1, some "a,b")] ∧
    Csv.find_raw ["a,b", "1,2"] "1,2" = [2] ∧
    ["a,b", "1,2"].get? 1 = some "1,2" :=
  ⟨by decide, by decide, by decide, by decide, by decide⟩

/-- C5 (counterexample): a parquet predicate naming a column absent from the
schema with a null value matches EVERY row (because `row.get(col, [None])[0]`
yields `None`), contradicting the claim that a predicate naming an absent
column never matches. -/
theorem claim_C5_counterexample :
    ("missing" ∉ tNullCells.schemaNames) ∧
    Parquet.find_rows_by_column_values tNullCells [("missing", none)] = [1, 2] :=
  ⟨by decide, by decide⟩

/-- C5 (amended): the parquet find scans every row and matches row `n` iff
every predicate column's looked-up value — `None` when the column is absent —
equals the predicate value, returning 1-based numbers in ascending order (so
an absent column never matches when its predicate value is non-null, but a
null predicate value on an absent column matches every row).  The CSV find
matches on strict per-column equality in ascending row order when all
predicate columns exist, and aborts with a `KeyError` (modelled `none`) when
one is absent. -/
theorem claim_C5_find (t : PTable) (pred : List (String × Option PVal))
    (df : DataFrame) (cpred : List (String × PVal)) :
    (∀ n, n ∈ Parquet.find_rows_by_column_values t pred ↔
        1 ≤ n ∧ n ≤ t.numRows ∧ ∀ p ∈ pred, t.lookupCell p.1 (n - 1) = p.2) ∧
    (Parquet.find_rows_by_column_values t pred).Pairwise (· < ·) ∧
    ((∃ p ∈ cpred, p.1 ∉ df.columns) →
      Csv.find_rows_by_column_values df cpred = none) ∧
    ((∀ p ∈ cpred, p.1 ∈ df.columns) →
      ∃ l, Csv.find_rows_by_column_values df cpred = some l ∧
        (∀ n, n ∈ l ↔ 1 ≤ n ∧ n ≤ df.numRows ∧
            ∀ p ∈ cpred, df.cellAt p.1 (n - 1) = some p.2) ∧
        l.Pairwise (· < ·)) := by
  refine ⟨?_, ?_, ?_, ?_⟩
  · intro n
    rw [Parquet.find_rows_by_column_values, mem_mapSucc_filter]
    simp only [List.all_eq_true, decide_eq_true_eq]
  · exact sorted_mapSucc_filter _ _
  · rintro ⟨p, hp, hmem⟩
    rw [Csv.find_rows_by_column_values, if_pos]
    rw [List.any_eq_true]
    refine ⟨p, hp, ?_⟩
    simp [hmem]
  · intro h
    have hno : ¬ ((cpred.any (fun p => !(decide (p.1 ∈ df.columns)))) = true) := by
      simp only [List.any_eq_true, Bool.not_eq_true', decide_eq_false_iff_not]
      rintro ⟨p, hp, hmem⟩
      exact hmem (h p hp)
    rw [Csv.find_rows_by_column_values, if_neg hno]
    refine ⟨_, rfl, ?_, sorted_mapSucc_filter _ _⟩
    intro n
    rw [mem_mapSucc_filter]
    simp only [List.all_eq_true, decide_eq_true_eq]

/-- C8: the text analyser takes the field count of the first processed line
(after the optional header skip) as expected, reports as malformed exactly
the later lines whose field count differs, and its histogram counts every
processed line by field count (so every observed count has a positive entry);
on the concrete source with counts 3, 2, 3 the malformed list is exactly
line 2 and the histogram has entries for both 3 and 2. -/
theorem claim_C8_text_analysis (lines : List String) (skipHeader : Bool) :
    (Csv.analyse_csv lines skipHeader).expected =
      (Csv.consideredLines lines skipHeader).head?.map
        (fun p => (Csv.strFields p.2).length) ∧
    (Csv.analyse_csv lines skipHeader).malformed =
      (match Csv.consideredLines lines skipHeader with
       | [] => []
       | q :: rest => (rest.filter (fun p =>
           decide ((Csv.strFields p.2).length ≠ (Csv.strFields q.2).length))).map
             Prod.fst) ∧
    (∀ c, (Csv.analyse_csv lines skipHeader).hist c =
      (Csv.consideredLines lines skipHeader).countP
        (fun p => decide ((Csv.strFields p.2).length = c))) ∧
    (∀ c, 0 < (Csv.analyse_csv lines skipHeader).hist c ↔
      ∃ p ∈ Csv.consideredLines lines skipHeader,
        (Csv.strFields p.2).length = c) ∧
    (Csv.analyse_csv ["a,b,c", "1,2", "3,4,5"] false).expected = some 3 ∧
    (Csv.analyse_csv ["a,b,c", "1,2", "3,4,5"] false).malformed = [2] ∧
    (Csv.analyse_csv ["a,b,c", "1,2", "3,4,5"] false).hist 3 = 2 ∧
    (Csv.analyse_csv ["a,b,c", "1,2", "3,4,5"] false).hist 2 = 1 := by
  have hhist : ∀ c, (Csv.analyse_csv lines skipHeader).hist c =
      (Csv.consideredLines lines skipHeader).countP
        (fun p => decide ((Csv.strFields p.2).length = c)) := by
    intro c
    rw [Csv.analyse_csv, csv_foldl_hist]
    simp
  refine ⟨?_, ?_, hhist, ?_, by decide, by decide, by decide, by decide⟩
  · rw [Csv.analyse_csv, csv_foldl_expected]
  · rw [Csv.analyse_csv, csv_foldl_malformed_none]
    rw [List.nil_append]
  · intro c
    rw [hhist c, List.countP_pos_iff]
    simp only [decide_eq_true_eq]

/-- C9: head and tail windows.  With `n ≤ row_count`, `head(n)` returns rows
1..n and `tail(row_count - n)` rows n+1..row_count, partitioning the source
with no gap or overlap and with consistent 1-based numbering; and for any
requested count the head/tail windows hold exactly the first/last
`min(count, row_count)` rows.  Both the parquet and the CSV variant. -/
theorem claim_C9_head_tail (t : PTable) (df : DataFrame) (n m : ℕ)
    (hn : n ≤ t.numRows) (hm : m ≤ df.numRows) :
    (Parquet.show_records t n false ++
        Parquet.show_records t (t.numRows - n) true =
      (List.range t.numRows).map (fun i => (i + 1, t.rowAt i))) ∧
    ((Parquet.show_records t n false).map Prod.fst =
      (List.range n).map (· + 1)) ∧
    ((Parquet.show_records t (t.numRows - n) true).map Prod.fst =
      (List.range (t.numRows - n)).map (fun i => n + i + 1)) ∧
    (∀ k, (Parquet.show_records t k false).map Prod.snd =
        ((List.range t.numRows).map t.rowAt).take (min k t.numRows)) ∧
    (∀ k, (Parquet.show_records t k true).map Prod.snd =
        ((List.range t.numRows).map t.rowAt).drop
          (t.numRows - min k t.numRows)) ∧
    (Csv.show_records df m false ++
        Csv.show_records df (df.numRows - m) true =
      (List.range df.numRows).map (fun i => (i + 1, df.rowAt i))) ∧
    (∀ k, (Csv.show_records df k false).map Prod.snd =
        ((List.range df.numRows).map df.rowAt).take (min k df.numRows)) ∧
    (∀ k, (Csv.show_records df k true).map Prod.snd =
        ((List.range df.numRows).map df.rowAt).drop
          (df.numRows - min k df.numRows)) := by
  have hp : ∀ count tl, Parquet.show_records t count tl =
      windowedRows t.numRows t.rowAt count tl := fun _ _ => rfl
  have hc : ∀ count tl, Csv.show_records df count tl =
      windowedRows df.numRows df.rowAt count tl := fun _ _ => rfl
  simp only [hp, hc]
  exact ⟨windowedRows_partition _ _ n hn,
    windowedRows_head_numbers _ _ n hn,
    windowedRows_tail_numbers _ _ n hn,
    fun k => windowedRows_head_rows _ _ k,
    fun k => windowedRows_tail_rows _ _ k,
    windowedRows_partition _ _ m hm,
    fun k => windowedRows_head_rows _ _ k,
    fun k => windowedRows_tail_rows _ _ k⟩

/-- C9 (witness): the head/tail partition at a two-row table with `n = 1`
and a two-row frame with `m = 1`. -/
theorem claim_C9_witness :
    (1 ≤ tNullCells.numRows ∧ 1 ≤ dfTwoRows.numRows) ∧
    ((Parquet.show_records tNullCells 1 false ++
        Parquet.show_records tNullCells (tNullCells.numRows - 1) true =
      (List.range tNullCells.numRows).map
        (fun i => (i + 1, tNullCells.rowAt i))) ∧
    ((Parquet.show_records tNullCells 1 false).map Prod.fst =
      (List.range 1).map (· + 1)) ∧
    ((Parquet.show_records tNullCells (tNullCells.numRows - 1) true).map
        Prod.fst =
      (List.range (tNullCells.numRows - 1)).map (fun i => 1 + i + 1)) ∧
    (∀ k, (Parquet.show_records tNullCells k false).map Prod.snd =
        ((List.range tNullCells.numRows).map tNullCells.rowAt).take
          (min k tNullCells.numRows)) ∧
    (∀ k, (Parquet.show_records tNullCells k true).map Prod.snd =
        ((List.range tNullCells.numRows).map tNullCells.rowAt).drop
          (tNullCells.numRows - min k tNullCells.numRows)) ∧
    (Csv.show_records dfTwoRows 1 false ++
        Csv.show_records dfTwoRows (dfTwoRows.numRows - 1) true =
      (List.range dfTwoRows.numRows).map
        (fun i => (i + 1, dfTwoRows.rowAt i))) ∧
    (∀ k, (Csv.show_records dfTwoRows k false).map Prod.snd =
        ((List.range dfTwoRows.numRows).map dfTwoRows.rowAt).take
          (min k dfTwoRows.numRows)) ∧
    (∀ k, (Csv.show_records dfTwoRows k true).map Prod.snd =
        ((List.range dfTwoRows.numRows).map dfTwoRows.rowAt).drop
          (dfTwoRows.numRows - min k dfTwoRows.numRows))) :=
  ⟨⟨by decide, by decide⟩,
    claim_C9_head_tail tNullCells dfTwoRows 1 1 (by decide) (by decide)⟩

end FileAnalyser
